import Mathlib

/-!
Shallow embedding of the article/tag/comment services of a RealWorld-style
blog backend (`src/articles/articles.service.ts`, `src/comments/comments.service.ts`),
together with proofs of the testable properties in the spec.

Persistence is modelled as an explicit `DB` value threaded through the
operations; randomness (the crypto byte source used for slug suffixes) is
an explicit list of byte values; repository failures are injected through
a `RepoFaults` record so that transactional rollback can be stated.
-/

/-- Error taxonomy of the services: `NotFoundException`, `UnauthorizedException`,
and a generic persistence failure (spec section 7). -/
inductive Err where
  | notFound
  | unauthorized
  | dbFailure
deriving DecidableEq, Repr

/-- Tag record (`src/tags/domain/tag.ts`): id and unique name.  Ids are
modelled as naturals. -/
structure Tag where
  id : Nat
  name : String
deriving DecidableEq, Repr

/-- The authenticated principal / a populated user relation: carries at least an id
(spec section 6, "Actor identity"). -/
structure UserRef where
  id : Nat
deriving DecidableEq, Repr

/-- Article record (spec section 3): id, title, slug, body, author reference,
tag associations. -/
structure Article where
  id : Nat
  title : String
  slug : String
  body : String
  author_id : Nat
  tagList : List Tag
deriving DecidableEq, Repr

/-- Comment record (spec section 3): id, body, owning article, author id, and the
optionally-populated author relation used by `CommentsService.remove`
(`comment?.author?.id`). -/
structure Comment where
  id : Nat
  body : String
  article_id : Nat
  author_id : Nat
  author : Option UserRef
deriving DecidableEq, Repr

/-- The persistent store: the tag, article and comment tables plus id counters
for fresh rows. -/
structure DB where
  tags : List Tag
  articles : List Article
  comments : List Comment
  nextTagId : Nat
  nextArticleId : Nat
deriving DecidableEq, Repr

/-- `CreateArticleDto`: title, body and the optional tag-name list
(`createArticleDto.tagList` may be absent). -/
structure CreateArticleDto where
  title : String
  body : String
  tagList : Option (List String)
deriving DecidableEq, Repr

/-- `UpdateArticleDto`: partial fields of an article
(`src/articles/dto/update-article.dto.ts`). -/
structure UpdateArticleDto where
  title : Option String
  body : Option String
deriving DecidableEq, Repr

/-- Failure-injection points for the persistence collaborators, used to state
transactional rollback (spec section 4.3, "Failure"). -/
structure RepoFaults where
  tagCreateFails : Bool
  articleCreateFails : Bool
  refetchFails : Bool
deriving DecidableEq, Repr

/-- No injected failures: every repository call succeeds. -/
def noFaults : RepoFaults := ⟨false, false, false⟩

/-- Worker for `unique`, carrying the set of already-emitted names. -/
def uniqueGo (seen : List String) : List String → List String
  | [] => []
  | x :: xs => if x ∈ seen then uniqueGo seen xs else x :: uniqueGo (x :: seen) xs

/-- radash `unique`: deduplicate a list keeping the first occurrence of each
element (used at `articles.service.ts:52`). -/
def unique (l : List String) : List String := uniqueGo [] l

/-- radash `diff root other`: the elements of `root` that do not occur in
`other` (used at `articles.service.ts:56`). -/
def diff (root other : List String) : List String :=
  root.filter (fun a => decide (a ∉ other))

/-- Modelled from the spec: `TagsService.findByNames` (the tags service is not
in the provided sources).  Spec section 4.1: "look up existing tags by the
deduplicated name set" — returns the tag records whose name is in the set. -/
def findByNames (names : List String) (db : DB) : List Tag :=
  db.tags.filter (fun t => decide (t.name ∈ names))

/-- Modelled from the spec: `TagsService.createMany` composed with
`toCreateTagDtos` (the tags service is not in the provided sources).  Spec
section 4.1: "bulk-create new tag records for exactly that difference" —
inserts one fresh tag row per given name and returns the created entities. -/
def createMany (names : List String) (db : DB) : List Tag × DB :=
  let newTags := names.enum.map (fun p => { id := db.nextTagId + p.1, name := p.2 : Tag })
  (newTags, { db with tags := db.tags ++ newTags, nextTagId := db.nextTagId + names.length })

/-- `ArticleRepository.findById`, modelled as first match by id. -/
def findArticleById (db : DB) (id : Nat) : Option Article :=
  db.articles.find? (fun a => decide (a.id = id))

/-- `ArticleRepository.findBySlug`, modelled as first match by slug. -/
def findArticleBySlug (db : DB) (slug : String) : Option Article :=
  db.articles.find? (fun a => decide (a.slug = slug))

/-- `CommentRepository.findById`, modelled as first match by id. -/
def findCommentById (db : DB) (id : Nat) : Option Comment :=
  db.comments.find? (fun c => decide (c.id = id))

/-- Modelled from the spec: the transaction manager
(`DatabaseHelperRepository.transactionManager.runInTransaction`, not in the
provided sources).  Spec section 6: "`runInTransaction(fn)` executes `fn`
atomically, propagating success/failure" — on success the new store is kept,
on failure the whole transaction rolls back to the original store. -/
def runInTransaction (fn : DB → Except Err (DB × Article)) (db : DB) :
    Except Err Article × DB :=
  match fn db with
  | .ok (db', a) => (.ok a, db')
  | .error e => (.error e, db)

/-- The 64-symbol suffix alphabet (`articles.service.ts:94`). -/
def charset : List Char :=
  "useandom-26T198340PX75pxJACKVERYMINDBUSHWOLF_GQZbfghjklqvwyzrict".data

/-- `ArticlesService.generateUniqueSuffix` (`articles.service.ts:93`): one
alphabet symbol per random byte via the 6-bit mask `byte & 63`.  The
cryptographic random byte source is passed explicitly; the default call site
supplies 11 bytes. -/
def ArticlesService.generateUniqueSuffix (randomValues : List Nat) : String :=
  String.mk (randomValues.map (fun b => charset.getD (b &&& 63) 'u'))

/-- Lower-case ASCII letters and digits. -/
def isLowerAlnum (c : Char) : Bool :=
  ('a' ≤ c && c ≤ 'z') || ('0' ≤ c && c ≤ '9')

/-- The punctuation set removed by the slugifier (`articles.service.ts:85`). -/
def removeSet : List Char := ['*', '+', '~', '.', '(', ')', '\'', '\"', '!', ':', '@']

/-- Worker for the strict slugifier: replace each maximal run of
non-alphanumeric characters by a single separator.  `afterSep` records whether
the previous emitted character was a separator (or we are at the start). -/
def collapseGo (afterSep : Bool) : List Char → List Char
  | [] => []
  | c :: cs =>
    if isLowerAlnum c then c :: collapseGo false cs
    else if afterSep then collapseGo true cs
    else '-' :: collapseGo true cs

/-- Modelled from the spec: the external `slugify` library call with
`lower: true, strict: true, remove: /[*+~.()'"!:@]/g`
(`articles.service.ts:82`).  Spec section 4.2: "lower-case the title, strip a
fixed set of punctuation characters, replace remaining non-alphanumeric runs
with a single separator". -/
def libSlugify (title : String) : String :=
  String.mk (collapseGo true ((title.data.map Char.toLower).filter (fun c => decide (c ∉ removeSet))))

/-- `ArticlesService.slugify` (`articles.service.ts:81`): base slug plus `-`
plus the random 11-character suffix. -/
def ArticlesService.slugify (title : String) (randomValues : List Nat) : String :=
  libSlugify title ++ "-" ++ ArticlesService.generateUniqueSuffix randomValues

/-- The tag-reconciliation branch of `createArticleWithTransaction`
(`articles.service.ts:49`–`68`): if tag names were supplied, deduplicate,
look up existing tags, and bulk-create the missing names.  The tag-creation
repository call can be failed through `faults`. -/
def reconcileTags (faults : RepoFaults) (tagList : Option (List String)) (db : DB) :
    Except Err (List Tag × DB) :=
  match tagList with
  | none => .ok ([], db)
  | some l =>
    if 0 < l.length then
      let u := unique l
      let found := findByNames u db
      let newNames := diff u (found.map Tag.name)
      if 0 < newNames.length then
        if faults.tagCreateFails then .error .dbFailure
        else
          let pr := createMany newNames db
          .ok (found ++ pr.1, pr.2)
      else .ok (found, db)
    else .ok ([], db)

/-- `ArticlesService.createArticleWithTransaction` (`articles.service.ts:40`):
reconcile tags, generate the slug, persist the article, re-fetch it with
relations.  The article-repository calls can be failed through `faults`. -/
def ArticlesService.createArticleWithTransaction (faults : RepoFaults)
    (dto : CreateArticleDto) (actorId : Nat) (randomValues : List Nat) (db : DB) :
    Except Err (DB × Article) := do
  let (tags, db1) ← reconcileTags faults dto.tagList db
  let slug := ArticlesService.slugify dto.title randomValues
  if faults.articleCreateFails then .error .dbFailure
  else
    let article : Article :=
      { id := db1.nextArticleId, title := dto.title, slug := slug,
        body := dto.body, author_id := actorId, tagList := tags }
    let db2 : DB := { db1 with articles := db1.articles ++ [article],
                               nextArticleId := db1.nextArticleId + 1 }
    if faults.refetchFails then .error .notFound
    else
      match findArticleById db2 article.id with
      | none => .error .notFound
      | some a => .ok (db2, a)

/-- `ArticlesService.create` (`articles.service.ts:30`): run the whole create
flow inside one transaction. -/
def ArticlesService.create (faults : RepoFaults) (dto : CreateArticleDto)
    (actorId : Nat) (randomValues : List Nat) (db : DB) : Except Err Article × DB :=
  runInTransaction (ArticlesService.createArticleWithTransaction faults dto actorId randomValues) db

/-- `ArticlesService.update` (`articles.service.ts:123`): validate existence,
regenerate the slug only when a (truthy) title was supplied that differs from
the current title, persist, return the updated article. -/
def ArticlesService.update (id : Nat) (dto : UpdateArticleDto)
    (randomValues : List Nat) (db : DB) : Except Err (Article × DB) :=
  match findArticleById db id with
  | none => .error .notFound
  | some article =>
    let newTitle := dto.title.getD article.title
    let regen : Bool :=
      match dto.title with
      | some t => decide (t ≠ "") && decide (t ≠ article.title)
      | none => false
    let updated : Article :=
      { article with
          title := newTitle,
          body := dto.body.getD article.body,
          slug := if regen then ArticlesService.slugify newTitle randomValues else article.slug }
    let db' : DB := { db with articles := db.articles.map (fun a => if a.id = id then updated else a) }
    .ok (updated, db')

/-- `CommentsService.remove` (`comments.service.ts:75`): fetch the comment
(NotFound when absent), compare the populated author relation's id with the
actor's id (`comment?.author?.id !== userJwtPayload.id`, Unauthorized on
mismatch), then delete.  Errors leave the store untouched. -/
def CommentsService.remove (id : Nat) (actorId : Nat) (db : DB) : Except Err Unit × DB :=
  match findCommentById db id with
  | none => (.error .notFound, db)
  | some comment =>
    if (comment.author.map UserRef.id) = some actorId then
      (.ok (), { db with comments := db.comments.filter (fun c => decide (c.id ≠ id)) })
    else (.error .unauthorized, db)

/-- `ArticlesService.validateArticle` (`articles.service.ts:223`): NotFound
when the slug does not resolve; the resolved article is discarded. -/
def ArticlesService.validateArticle (slug : String) (db : DB) : Except Err Unit :=
  match findArticleBySlug db slug with
  | none => .error .notFound
  | some _ => .ok ()

/-- `ArticlesService.removeComment` (`articles.service.ts:236`): validate the
article slug, then delegate to `CommentsService.remove` with the comment id
only — the resolved article is not passed on. -/
def ArticlesService.removeComment (id : Nat) (slug : String) (actorId : Nat) (db : DB) :
    Except Err Unit × DB :=
  match ArticlesService.validateArticle slug db with
  | .error e => (.error e, db)
  | .ok () => CommentsService.remove id actorId db

/-! ### Helper lemmas -/

theorem mem_uniqueGo (y : String) :
    ∀ (l seen : List String), y ∈ uniqueGo seen l ↔ y ∈ l ∧ y ∉ seen := by
  intro l
  induction l with
  | nil => intro seen; simp [uniqueGo]
  | cons x xs ih =>
    intro seen
    by_cases hx : x ∈ seen
    · simp only [uniqueGo, if_pos hx, ih, List.mem_cons]
      constructor
      · rintro ⟨h1, h2⟩; exact ⟨Or.inr h1, h2⟩
      · rintro ⟨h1 | h1, h2⟩
        · exact absurd (h1 ▸ hx) h2
        · exact ⟨h1, h2⟩
    · simp only [uniqueGo, if_neg hx, List.mem_cons, ih]
      constructor
      · rintro (rfl | ⟨h1, h2⟩)
        · exact ⟨Or.inl rfl, hx⟩
        · exact ⟨Or.inr h1, fun hs => h2 (Or.inr hs)⟩
      · rintro ⟨rfl | h1, h2⟩
        · exact Or.inl rfl
        · by_cases hyx : y = x
          · exact Or.inl hyx
          · exact Or.inr ⟨h1, by simp [List.mem_cons, hyx, h2]⟩

theorem nodup_uniqueGo : ∀ (l seen : List String), (uniqueGo seen l).Nodup := by
  intro l
  induction l with
  | nil => intro seen; simp [uniqueGo]
  | cons x xs ih =>
    intro seen
    by_cases hx : x ∈ seen
    · simpa [uniqueGo, hx] using ih seen
    · simp only [uniqueGo, if_neg hx, List.nodup_cons]
      refine ⟨fun hmem => ?_, ih _⟩
      exact ((mem_uniqueGo x xs (x :: seen)).mp hmem).2 (List.mem_cons_self x seen)

theorem mem_unique (y : String) (l : List String) : y ∈ unique l ↔ y ∈ l := by
  simp [unique, mem_uniqueGo]

theorem nodup_unique (l : List String) : (unique l).Nodup := nodup_uniqueGo l []

theorem mem_diff (y : String) (root other : List String) :
    y ∈ diff root other ↔ y ∈ root ∧ y ∉ other := by
  simp [diff, List.mem_filter]

theorem mem_findByNames_name (n : String) (names : List String) (db : DB) :
    n ∈ (findByNames names db).map Tag.name ↔ n ∈ db.tags.map Tag.name ∧ n ∈ names := by
  simp only [findByNames, List.mem_map, List.mem_filter, decide_eq_true_eq]
  constructor
  · rintro ⟨t, ⟨ht, hn⟩, rfl⟩
    exact ⟨⟨t, ht, rfl⟩, hn⟩
  · rintro ⟨⟨t, ht, rfl⟩, hn⟩
    exact ⟨t, ⟨ht, hn⟩, rfl⟩

theorem nodup_findByNames_name (names : List String) (db : DB)
    (hwf : (db.tags.map Tag.name).Nodup) :
    ((findByNames names db).map Tag.name).Nodup :=
  hwf.sublist ((List.filter_sublist db.tags).map Tag.name)

theorem createMany_fst_name (names : List String) (db : DB) :
    (createMany names db).1.map Tag.name = names := by
  simp only [createMany]
  rw [List.map_map]
  have : (Tag.name ∘ fun p : Nat × String => { id := db.nextTagId + p.1, name := p.2 : Tag })
      = Prod.snd := by
    funext p; rfl
  rw [this, List.enum_map_snd]

theorem createMany_snd_tags (names : List String) (db : DB) :
    (createMany names db).2.tags = db.tags ++ (createMany names db).1 := rfl

theorem getD_mem_of_lt {α : Type} (l : List α) (i : Nat) (d : α) (h : i < l.length) :
    l.getD i d ∈ l := by
  induction l generalizing i with
  | nil => simp at h
  | cons x xs ih =>
    cases i with
    | zero => simp [List.getD]
    | succ j =>
      have hj : j < xs.length := Nat.lt_of_succ_lt_succ h
      simpa [List.getD] using Or.inr (by simpa [List.getD] using ih j hj)

theorem collapseGo_chars (l : List Char) :
    ∀ (b : Bool) (c : Char), c ∈ collapseGo b l → isLowerAlnum c = true ∨ c = '-' := by
  induction l with
  | nil => intro b c hc; simp [collapseGo] at hc
  | cons x xs ih =>
    intro b c hc
    by_cases hx : isLowerAlnum x
    · simp only [collapseGo, if_pos hx, List.mem_cons] at hc
      rcases hc with rfl | hc
      · exact Or.inl hx
      · exact ih false c hc
    · cases b with
      | true =>
        simp only [collapseGo, if_neg hx, if_pos rfl] at hc
        exact ih true c hc
      | false =>
        simp only [collapseGo, if_neg hx, Bool.false_eq_true, if_false, List.mem_cons] at hc
        rcases hc with rfl | hc
        · exact Or.inr rfl
        · exact ih true c hc

theorem reconcile_props (l : List String) (db : DB) (hl : l ≠ [])
    (hwf : (db.tags.map Tag.name).Nodup) :
    ∃ tags db',
      reconcileTags noFaults (some l) db = .ok (tags, db') ∧
      (tags.map Tag.name).Nodup ∧
      (∀ n, n ∈ tags.map Tag.name ↔ n ∈ l) ∧
      db'.tags.map Tag.name
        = db.tags.map Tag.name
          ++ (unique l).filter (fun n => decide (n ∉ db.tags.map Tag.name)) ∧
      (∀ t ∈ db.tags, t.name ∈ l → t ∈ tags) := by
  have hlen : 0 < l.length := List.length_pos.mpr hl
  have hkey : ∀ n ∈ unique l,
      (decide (n ∉ (findByNames (unique l) db).map Tag.name)
        = decide (n ∉ db.tags.map Tag.name)) := by
    intro n hn
    apply decide_eq_decide.mpr
    rw [mem_findByNames_name]
    constructor
    · intro h hdb; exact h ⟨hdb, hn⟩
    · intro h hc; exact h hc.1
  have hfilter : diff (unique l) ((findByNames (unique l) db).map Tag.name)
      = (unique l).filter (fun n => decide (n ∉ db.tags.map Tag.name)) := by
    unfold diff
    exact List.filter_congr hkey
  have hfound_sub : ∀ t ∈ db.tags, t.name ∈ l → t ∈ findByNames (unique l) db := by
    intro t ht hname
    simp only [findByNames, List.mem_filter, decide_eq_true_eq]
    exact ⟨ht, (mem_unique t.name l).mpr hname⟩
  by_cases hnn : 0 < (diff (unique l) ((findByNames (unique l) db).map Tag.name)).length
  · refine ⟨findByNames (unique l) db
        ++ (createMany (diff (unique l) ((findByNames (unique l) db).map Tag.name)) db).1,
      (createMany (diff (unique l) ((findByNames (unique l) db).map Tag.name)) db).2,
      ?_, ?_, ?_, ?_, ?_⟩
    · simp only [reconcileTags, noFaults, if_pos hlen, if_pos hnn, Bool.false_eq_true,
        if_false]
    · rw [List.map_append, createMany_fst_name]
      refine List.Nodup.append (nodup_findByNames_name _ _ hwf)
        ((nodup_unique l).filter _) ?_
      intro n hn1 hn2
      exact ((mem_diff n _ _).mp hn2).2 hn1
    · intro n
      rw [List.map_append, createMany_fst_name, List.mem_append, mem_diff,
        mem_findByNames_name]
      constructor
      · rintro (⟨_, h⟩ | ⟨h, _⟩) <;> exact (mem_unique n l).mp h
      · intro hnl
        have hnu : n ∈ unique l := (mem_unique n l).mpr hnl
        by_cases hdb : n ∈ db.tags.map Tag.name
        · exact Or.inl ⟨hdb, hnu⟩
        · exact Or.inr ⟨hnu, fun hc => hdb hc.1⟩
    · rw [createMany_snd_tags, List.map_append, createMany_fst_name, hfilter]
    · intro t ht hname
      exact List.mem_append_left _ (hfound_sub t ht hname)
  · have hempty : diff (unique l) ((findByNames (unique l) db).map Tag.name) = [] :=
      List.length_eq_zero.mp (Nat.eq_zero_of_not_pos hnn)
    refine ⟨findByNames (unique l) db, db, ?_, nodup_findByNames_name _ _ hwf, ?_, ?_, ?_⟩
    · simp only [reconcileTags, noFaults, if_pos hlen, if_neg hnn]
    · intro n
      rw [mem_findByNames_name]
      constructor
      · rintro ⟨_, h⟩; exact (mem_unique n l).mp h
      · intro hnl
        have hnu := (mem_unique n l).mpr hnl
        by_cases hdb : n ∈ db.tags.map Tag.name
        · exact ⟨hdb, hnu⟩
        · exfalso
          have hmem : n ∈ diff (unique l) ((findByNames (unique l) db).map Tag.name) := by
            rw [mem_diff, mem_findByNames_name]
            exact ⟨hnu, fun hc => hdb hc.1⟩
          rw [hempty] at hmem
          simp at hmem
    · rw [hfilter] at hempty
      rw [hempty, List.append_nil]
    · intro t ht hname
      exact hfound_sub t ht hname

/-! ### Claim theorems -/

/-- C1: article creation is atomic — whenever any step of the create flow
fails, the transaction rolls back and the store is exactly the initial one:
no new article row and no orphan tag rows remain. -/
theorem C1_create_rollback (faults : RepoFaults) (dto : CreateArticleDto)
    (actorId : Nat) (rnd : List Nat) (db : DB) (e : Err)
    (h : (ArticlesService.create faults dto actorId rnd db).1 = .error e) :
    (ArticlesService.create faults dto actorId rnd db).2 = db ∧
    (ArticlesService.create faults dto actorId rnd db).2.articles = db.articles ∧
    (ArticlesService.create faults dto actorId rnd db).2.tags = db.tags := by
  unfold ArticlesService.create runInTransaction at h ⊢
  cases hfn : ArticlesService.createArticleWithTransaction faults dto actorId rnd db with
  | ok pr =>
    obtain ⟨db', a⟩ := pr
    rw [hfn] at h
    simp at h
  | error e' =>
    exact ⟨rfl, rfl, rfl⟩

/-- Fixture for the C1 witness: the article-repository insert fails. -/
def faultsC1 : RepoFaults := ⟨false, true, false⟩

/-- Fixture for the C1 witness. -/
def dtoC1 : CreateArticleDto := ⟨"Hello", "body", some ["x"]⟩

/-- Fixture for the C1 witness: an empty store. -/
def dbC1 : DB := ⟨[], [], [], 0, 0⟩

/-- C1 witness: with a failing article insert, creation reports the generic
failure and the store is unchanged. -/
theorem C1_create_rollback_witness :
    (ArticlesService.create faultsC1 dtoC1 7 [] dbC1).1 = .error .dbFailure ∧
    (ArticlesService.create faultsC1 dtoC1 7 [] dbC1).2 = dbC1 :=
  ⟨by rfl, (C1_create_rollback faultsC1 dtoC1 7 [] dbC1 .dbFailure (by rfl)).1⟩

/-- C2: for every tag-name list containing duplicates (over a store whose tag
names are unique), reconciliation deduplicates, returns exactly one tag entity
per distinct requested name, and creates exactly one tag per distinct name
that had no existing record. -/
theorem C2_reconcile_dedup (tagList : List String) (db : DB)
    (hdup : ¬ tagList.Nodup) (hwf : (db.tags.map Tag.name).Nodup) :
    ∃ tags db',
      reconcileTags noFaults (some tagList) db = .ok (tags, db') ∧
      (tags.map Tag.name).Nodup ∧
      (∀ n, n ∈ tags.map Tag.name ↔ n ∈ tagList) ∧
      db'.tags.map Tag.name
        = db.tags.map Tag.name
          ++ (unique tagList).filter (fun n => decide (n ∉ db.tags.map Tag.name)) := by
  have hl : tagList ≠ [] := by rintro rfl; exact hdup List.nodup_nil
  obtain ⟨tags, db', h1, h2, h3, h4, _⟩ := reconcile_props tagList db hl hwf
  exact ⟨tags, db', h1, h2, h3, h4⟩

/-- Fixture for the C2 witness: one existing tag named `a`. -/
def dbC2 : DB := ⟨[⟨0, "a"⟩], [], [], 1, 0⟩

/-- C2 witness: the duplicated request `[a, a, b]` against a store holding
tag `a`. -/
theorem C2_reconcile_dedup_witness :
    ∃ tags db',
      reconcileTags noFaults (some ["a", "a", "b"]) dbC2 = .ok (tags, db') ∧
      (tags.map Tag.name).Nodup ∧
      (∀ n, n ∈ tags.map Tag.name ↔ n ∈ ["a", "a", "b"]) ∧
      db'.tags.map Tag.name
        = dbC2.tags.map Tag.name
          ++ (unique ["a", "a", "b"]).filter
              (fun n => decide (n ∉ dbC2.tags.map Tag.name)) :=
  C2_reconcile_dedup ["a", "a", "b"] dbC2 (by decide) (by decide)

/-- C3: a request pairing one existing tag name with one new name creates
exactly one new tag (for the missing name), reuses the stored tag entity for
the existing name, and yields no duplicate. -/
theorem C3_reconcile_existing_plus_new (e n : String) (db : DB) (hne : e ≠ n)
    (he : e ∈ db.tags.map Tag.name) (hn : n ∉ db.tags.map Tag.name)
    (hwf : (db.tags.map Tag.name).Nodup) :
    ∃ tags db',
      reconcileTags noFaults (some [e, n]) db = .ok (tags, db') ∧
      db'.tags.map Tag.name = db.tags.map Tag.name ++ [n] ∧
      (∀ t ∈ db.tags, t.name = e → t ∈ tags) ∧
      (tags.map Tag.name).Nodup ∧
      (∀ m, m ∈ tags.map Tag.name ↔ m = e ∨ m = n) := by
  obtain ⟨tags, db', h1, h2, h3, h4, h5⟩ :=
    reconcile_props [e, n] db (by simp) hwf
  have hu : unique [e, n] = [e, n] := by
    simp [unique, uniqueGo, Ne.symm hne]
  refine ⟨tags, db', h1, ?_, ?_, h2, ?_⟩
  · rw [h4, hu]
    congr 1
    rw [List.filter_cons, List.filter_cons]
    simp [he, hn]
  · intro t ht hte
    exact h5 t ht (by simp [hte])
  · intro m
    rw [h3 m]
    simp

/-- Fixture for the C3 witness: one existing tag named `go`. -/
def dbC3 : DB := ⟨[⟨0, "go"⟩], [], [], 1, 0⟩

/-- C3 witness: the request `[go, rust]` against a store holding tag `go`. -/
theorem C3_reconcile_existing_plus_new_witness :
    ∃ tags db',
      reconcileTags noFaults (some ["go", "rust"]) dbC3 = .ok (tags, db') ∧
      db'.tags.map Tag.name = dbC3.tags.map Tag.name ++ ["rust"] ∧
      (∀ t ∈ dbC3.tags, t.name = "go" → t ∈ tags) ∧
      (tags.map Tag.name).Nodup ∧
      (∀ m, m ∈ tags.map Tag.name ↔ m = "go" ∨ m = "rust") :=
  C3_reconcile_existing_plus_new "go" "rust" dbC3 (by decide) (by decide) (by decide)
    (by decide)

theorem find?_append_fresh (l : List Article) (art : Article)
    (h : ∀ a ∈ l, a.id ≠ art.id) :
    (l ++ [art]).find? (fun a => decide (a.id = art.id)) = some art := by
  rw [List.find?_append]
  have h1 : l.find? (fun a => decide (a.id = art.id)) = none :=
    List.find?_eq_none.mpr (fun a ha => by simpa using h a ha)
  rw [h1]
  simp [List.find?]

/-- C7: a creation request with an absent or empty tag-name list never touches
the tag collaborator — even a failing tag-create repository is never reached,
the tag table is unchanged — and the persisted article carries an empty tag
list. -/
theorem C7_empty_tag_list (faults : RepoFaults) (dto : CreateArticleDto)
    (actorId : Nat) (rnd : List Nat) (db : DB)
    (hempty : dto.tagList = none ∨ dto.tagList = some [])
    (hwf : ∀ a ∈ db.articles, a.id ≠ db.nextArticleId) :
    reconcileTags faults dto.tagList db = .ok ([], db) ∧
    ∀ a, (ArticlesService.create faults dto actorId rnd db).1 = .ok a →
      a.tagList = [] ∧
      (ArticlesService.create faults dto actorId rnd db).2.tags = db.tags := by
  have hrec : reconcileTags faults dto.tagList db = .ok ([], db) := by
    rcases hempty with h | h <;> simp [reconcileTags, h]
  refine ⟨hrec, ?_⟩
  intro a ha
  unfold ArticlesService.create runInTransaction at ha ⊢
  unfold ArticlesService.createArticleWithTransaction at ha ⊢
  rw [hrec] at ha ⊢
  by_cases hac : faults.articleCreateFails
  · simp [hac, Bind.bind, Except.bind] at ha
  · by_cases hrf : faults.refetchFails
    · simp [hac, hrf, Bind.bind, Except.bind] at ha
    · have hfind : findArticleById
          { db with
              articles := db.articles
                ++ [{ id := db.nextArticleId, title := dto.title,
                      slug := ArticlesService.slugify dto.title rnd,
                      body := dto.body, author_id := actorId, tagList := [] }],
              nextArticleId := db.nextArticleId + 1 }
          db.nextArticleId
          = some { id := db.nextArticleId, title := dto.title,
                   slug := ArticlesService.slugify dto.title rnd,
                   body := dto.body, author_id := actorId, tagList := [] } := by
        unfold findArticleById
        exact find?_append_fresh db.articles
          { id := db.nextArticleId, title := dto.title,
            slug := ArticlesService.slugify dto.title rnd,
            body := dto.body, author_id := actorId, tagList := [] } hwf
      simp [hac, hrf, Bind.bind, Except.bind, hfind] at ha ⊢
      simp [← ha]

/-- Fixture for the C7 witness: a creation request with no tag list. -/
def dtoC7 : CreateArticleDto := ⟨"T", "b", none⟩

/-- Fixture for the C7 witness: an empty store. -/
def dbC7 : DB := ⟨[], [], [], 0, 0⟩

/-- Fixture for the C7 witness: the article the create flow persists. -/
def artC7 : Article := ⟨0, "T", "t-", "b", 7, []⟩

/-- C7 witness: creating with an absent tag list leaves the tag table alone
and persists an article with an empty tag list. -/
theorem C7_empty_tag_list_witness :
    reconcileTags noFaults (none : Option (List String)) dbC7 = .ok ([], dbC7) ∧
    (ArticlesService.create noFaults dtoC7 7 [] dbC7).1 = .ok artC7 ∧
    artC7.tagList = [] ∧
    (ArticlesService.create noFaults dtoC7 7 [] dbC7).2.tags = dbC7.tags := by
  have h := C7_empty_tag_list noFaults dtoC7 7 [] dbC7 (Or.inl rfl) (by simp [dbC7])
  have hok : (ArticlesService.create noFaults dtoC7 7 [] dbC7).1 = .ok artC7 := by rfl
  exact ⟨h.1, hok, (h.2 artC7 hok).1, (h.2 artC7 hok).2⟩

/-- C4 counterexample: the claim says the whole slug contains only lower-case
alphanumerics and the separator, but the 64-symbol alphabet also holds
upper-case letters — with random bytes all equal to 11 the suffix is
`TTTTTTTTTTT`, so `slugify "hi"` yields `hi-TTTTTTTTTTT`, which violates the
claimed character set. -/
theorem C4_slug_charset_counterexample :
    ¬ (∀ c ∈ (ArticlesService.slugify "hi" (List.replicate 11 11)).data,
        isLowerAlnum c = true ∨ c = '-') := by
  decide

/-- C4 (amended): the base portion of the slug contains only lower-case
alphanumerics and the separator, and the slug ends with the separator
followed by an 11-character suffix drawn from the 64-symbol alphabet (which
also holds upper-case letters, `-` and `_`). -/
theorem C4_slug_charset_amended (title : String) (bytes : List Nat)
    (h : bytes.length = 11) :
    (∀ c ∈ (libSlugify title).data, isLowerAlnum c = true ∨ c = '-') ∧
    ArticlesService.slugify title bytes
      = libSlugify title ++ "-" ++ ArticlesService.generateUniqueSuffix bytes ∧
    (ArticlesService.generateUniqueSuffix bytes).length = 11 ∧
    (∀ c ∈ (ArticlesService.generateUniqueSuffix bytes).data, c ∈ charset) := by
  refine ⟨?_, rfl, ?_, ?_⟩
  · intro c hc
    simp only [libSlugify] at hc
    exact collapseGo_chars _ true c hc
  · simp [ArticlesService.generateUniqueSuffix, String.length, h]
  · intro c hc
    simp only [ArticlesService.generateUniqueSuffix, List.mem_map] at hc
    obtain ⟨b, _, rfl⟩ := hc
    refine getD_mem_of_lt charset (b &&& 63) 'u' ?_
    have hb : b &&& 63 ≤ 63 := Nat.and_le_right
    have hcs : charset.length = 64 := by rfl
    omega

/-- C4 witness for the amended claim, at the spec's own example title. -/
theorem C4_slug_charset_amended_witness :
    (∀ c ∈ (libSlugify "Hello, World!").data, isLowerAlnum c = true ∨ c = '-') ∧
    ArticlesService.slugify "Hello, World!" (List.range 11)
      = libSlugify "Hello, World!" ++ "-"
        ++ ArticlesService.generateUniqueSuffix (List.range 11) ∧
    (ArticlesService.generateUniqueSuffix (List.range 11)).length = 11 ∧
    (∀ c ∈ (ArticlesService.generateUniqueSuffix (List.range 11)).data,
      c ∈ charset) :=
  C4_slug_charset_amended "Hello, World!" (List.range 11) (by decide)

/-- C5: called on the default-length byte vector (11 random bytes), the
suffix generator returns a string of exactly 11 characters, each the alphabet
symbol selected by masking one random byte with 6 bits, hence each a member
of the 64-symbol alphabet. -/
theorem C5_suffix_from_alphabet (bytes : List Nat) (h : bytes.length = 11) :
    (ArticlesService.generateUniqueSuffix bytes).length = 11 ∧
    (∀ c ∈ (ArticlesService.generateUniqueSuffix bytes).data,
      ∃ b ∈ bytes, c = charset.getD (b &&& 63) 'u') ∧
    (∀ c ∈ (ArticlesService.generateUniqueSuffix bytes).data, c ∈ charset) := by
  refine ⟨?_, ?_, ?_⟩
  · simp [ArticlesService.generateUniqueSuffix, String.length, h]
  · intro c hc
    simp only [ArticlesService.generateUniqueSuffix, List.mem_map] at hc
    obtain ⟨b, hb, rfl⟩ := hc
    exact ⟨b, hb, rfl⟩
  · intro c hc
    simp only [ArticlesService.generateUniqueSuffix, List.mem_map] at hc
    obtain ⟨b, _, rfl⟩ := hc
    refine getD_mem_of_lt charset (b &&& 63) 'u' ?_
    have hb : b &&& 63 ≤ 63 := Nat.and_le_right
    have hcs : charset.length = 64 := by rfl
    omega

/-- C5 witness: eleven concrete bytes, among them values above 63 that the
mask folds back into the alphabet. -/
theorem C5_suffix_from_alphabet_witness :
    (ArticlesService.generateUniqueSuffix
        [0, 1, 63, 64, 100, 200, 255, 7, 42, 11, 199]).length = 11 ∧
    (∀ c ∈ (ArticlesService.generateUniqueSuffix
        [0, 1, 63, 64, 100, 200, 255, 7, 42, 11, 199]).data,
      ∃ b ∈ [0, 1, 63, 64, 100, 200, 255, 7, 42, 11, 199],
        c = charset.getD (b &&& 63) 'u') ∧
    (∀ c ∈ (ArticlesService.generateUniqueSuffix
        [0, 1, 63, 64, 100, 200, 255, 7, 42, 11, 199]).data, c ∈ charset) :=
  C5_suffix_from_alphabet [0, 1, 63, 64, 100, 200, 255, 7, 42, 11, 199] (by decide)

/-- C6: update signals NotFound when the id does not resolve, and when the
supplied title is absent or equal to the article's current title the updated
article keeps its slug. -/
theorem C6_update_slug_stable (id : Nat) (dto : UpdateArticleDto)
    (rnd : List Nat) (db : DB) :
    (findArticleById db id = none →
      ArticlesService.update id dto rnd db = .error .notFound) ∧
    (∀ a, findArticleById db id = some a →
      (dto.title = none ∨ dto.title = some a.title) →
      ∀ a' db', ArticlesService.update id dto rnd db = .ok (a', db') →
        a'.slug = a.slug) := by
  constructor
  · intro h
    unfold ArticlesService.update
    rw [h]
  · intro a ha hti a' db' hupd
    unfold ArticlesService.update at hupd
    rw [ha] at hupd
    rcases hti with h | h
    · rw [h] at hupd
      simp at hupd
      rw [← hupd.1]
    · rw [h] at hupd
      simp at hupd
      rw [← hupd.1]

/-- Fixture for the C6 witness: the stored article. -/
def artC6 : Article := ⟨1, "T", "t-abc", "b", 5, []⟩

/-- Fixture for the C6 witness: a store holding only `artC6`. -/
def dbC6 : DB := ⟨[], [artC6], [], 0, 2⟩

/-- Fixture for the C6 witness: the article after a body-only update. -/
def artC6' : Article := ⟨1, "T", "t-abc", "nb", 5, []⟩

/-- Fixture for the C6 witness: the store after the update. -/
def dbC6' : DB := ⟨[], [artC6'], [], 0, 2⟩

/-- C6 witness: updating article 1 with its unchanged title `T` (and a new
body) keeps the slug `t-abc`; a missing id signals NotFound. -/
theorem C6_update_slug_stable_witness :
    ArticlesService.update 99 ⟨some "T", some "nb"⟩ [] dbC6 = .error .notFound ∧
    ArticlesService.update 1 ⟨some "T", some "nb"⟩ [] dbC6 = .ok (artC6', dbC6') ∧
    artC6'.slug = artC6.slug :=
  ⟨(C6_update_slug_stable 99 ⟨some "T", some "nb"⟩ [] dbC6).1 (by rfl),
   by rfl,
   (C6_update_slug_stable 1 ⟨some "T", some "nb"⟩ [] dbC6).2 artC6 (by rfl)
     (Or.inr (by rfl)) artC6' dbC6' (by rfl)⟩

theorem remove_author_deletes (db : DB) (id actorId : Nat) (c : Comment)
    (u : UserRef) (hc : findCommentById db id = some c) (hau : c.author = some u)
    (hu : u.id = actorId) :
    (CommentsService.remove id actorId db).1 = .ok () ∧
    findCommentById (CommentsService.remove id actorId db).2 id = none := by
  subst hu
  unfold CommentsService.remove
  rw [hc]
  simp only [hau, Option.map_some']
  rw [if_pos trivial]
  refine ⟨rfl, ?_⟩
  unfold findCommentById
  rw [List.find?_eq_none]
  intro x hx
  rw [List.mem_filter] at hx
  simpa using hx.2

/-- C8: comment removal signals NotFound for a missing id (store untouched),
Unauthorized when the fetched comment's populated author is not the actor
(store untouched), and deletes the comment when the actor is its author, after
which the comment is no longer retrievable. -/
theorem C8_comment_remove_authorization (db : DB) (id actorId : Nat) :
    (findCommentById db id = none →
      CommentsService.remove id actorId db = (.error .notFound, db)) ∧
    (∀ c u, findCommentById db id = some c → c.author = some u →
      u.id ≠ actorId →
      CommentsService.remove id actorId db = (.error .unauthorized, db)) ∧
    (∀ c u, findCommentById db id = some c → c.author = some u →
      u.id = actorId →
      (CommentsService.remove id actorId db).1 = .ok () ∧
      findCommentById (CommentsService.remove id actorId db).2 id = none) := by
  refine ⟨?_, ?_, ?_⟩
  · intro h
    unfold CommentsService.remove
    rw [h]
  · intro c u hc hau hne
    unfold CommentsService.remove
    rw [hc]
    simp only [hau, Option.map_some']
    rw [if_neg (by simpa using hne)]
  · intro c u hc hau heq
    exact remove_author_deletes db id actorId c u hc hau heq

/-- Fixture for the C8 witness: a comment authored by user 5, with the author
relation populated. -/
def cmtC8 : Comment := ⟨1, "hi", 1, 5, some ⟨5⟩⟩

/-- Fixture for the C8 witness: a store holding only `cmtC8`. -/
def dbC8 : DB := ⟨[], [], [cmtC8], 0, 0⟩

/-- C8 witness: a missing id is NotFound, actor 6 is Unauthorized, and
author 5 deletes the comment, which is then unretrievable. -/
theorem C8_comment_remove_authorization_witness :
    CommentsService.remove 99 5 dbC8 = (.error .notFound, dbC8) ∧
    CommentsService.remove 1 6 dbC8 = (.error .unauthorized, dbC8) ∧
    (CommentsService.remove 1 5 dbC8).1 = .ok () ∧
    findCommentById (CommentsService.remove 1 5 dbC8).2 1 = none :=
  ⟨(C8_comment_remove_authorization dbC8 99 5).1 (by rfl),
   (C8_comment_remove_authorization dbC8 1 6).2.1 cmtC8 ⟨5⟩ (by rfl) (by rfl)
     (by decide),
   ((C8_comment_remove_authorization dbC8 1 5).2.2 cmtC8 ⟨5⟩ (by rfl) (by rfl)
     (by rfl)).1,
   ((C8_comment_remove_authorization dbC8 1 5).2.2 cmtC8 ⟨5⟩ (by rfl) (by rfl)
     (by rfl)).2⟩

/-- C9: `removeComment` never cross-checks the comment against the article the
slug resolves to — as long as the slug resolves to some article and the actor
authored the comment, the comment is deleted even when its `article_id`
differs from the resolved article's id. -/
theorem C9_remove_comment_ignores_slug (db : DB) (slug : String)
    (id actorId : Nat) (art : Article) (c : Comment) (u : UserRef)
    (hart : findArticleBySlug db slug = some art)
    (hc : findCommentById db id = some c)
    (hau : c.author = some u) (hu : u.id = actorId)
    (hdiff : c.article_id ≠ art.id) :
    (ArticlesService.removeComment id slug actorId db).1 = .ok () ∧
    findCommentById (ArticlesService.removeComment id slug actorId db).2 id
      = none := by
  unfold ArticlesService.removeComment ArticlesService.validateArticle
  rw [hart]
  exact remove_author_deletes db id actorId c u hc hau hu

/-- Fixture for the C9 witness: the article that slug `s` resolves to, with
id 1. -/
def artC9 : Article := ⟨1, "T", "s", "b", 5, []⟩

/-- Fixture for the C9 witness: a comment on article 2, authored by user 5. -/
def cmtC9 : Comment := ⟨1, "hi", 2, 5, some ⟨5⟩⟩

/-- Fixture for the C9 witness: slug `s` resolves to article 1, yet the only
comment belongs to article 2. -/
def dbC9 : DB := ⟨[], [artC9], [cmtC9], 0, 2⟩

/-- C9 witness: deleting comment 1 through article `s` succeeds although the
comment belongs to a different article. -/
theorem C9_remove_comment_ignores_slug_witness :
    cmtC9.article_id ≠ artC9.id ∧
    (ArticlesService.removeComment 1 "s" 5 dbC9).1 = .ok () ∧
    findCommentById (ArticlesService.removeComment 1 "s" 5 dbC9).2 1 = none :=
  ⟨by decide,
   (C9_remove_comment_ignores_slug dbC9 "s" 1 5 artC9 cmtC9 ⟨5⟩ (by rfl) (by rfl)
     (by rfl) (by rfl) (by decide)).1,
   (C9_remove_comment_ignores_slug dbC9 "s" 1 5 artC9 cmtC9 ⟨5⟩ (by rfl) (by rfl)
     (by rfl) (by rfl) (by decide)).2⟩

/-- C10: when the fetched comment's author relation is not populated,
`comment?.author?.id` is undefined, so removal signals Unauthorized for every
actor — the comment's actual author included — and nothing is deleted. -/
theorem C10_unpopulated_author_always_unauthorized (db : DB) (id actorId : Nat)
    (c : Comment) (hc : findCommentById db id = some c)
    (hau : c.author = none) :
    CommentsService.remove id actorId db = (.error .unauthorized, db) := by
  unfold CommentsService.remove
  rw [hc]
  simp [hau]

/-- Fixture for the C10 witness: a comment whose `author_id` is 5 but whose
author relation is not populated. -/
def cmtC10 : Comment := ⟨1, "hi", 1, 5, none⟩

/-- Fixture for the C10 witness: a store holding only `cmtC10`. -/
def dbC10 : DB := ⟨[], [], [cmtC10], 0, 0⟩

/-- C10 witness: even the actual author (actor 5 = `author_id`) is
Unauthorized when the author relation is unpopulated. -/
theorem C10_unpopulated_author_always_unauthorized_witness :
    cmtC10.author_id = 5 ∧
    CommentsService.remove 1 5 dbC10 = (.error .unauthorized, dbC10) :=
  ⟨by rfl,
   C10_unpopulated_author_always_unauthorized dbC10 1 5 cmtC10 (by rfl) (by rfl)⟩
